import Mathlib

/-!
Verification development for the spotistats incremental ingestion pipeline
(src/backend/main.py, src/backend/src/database.py, src/backend/src/models.py,
src/backend/src/normalizer.py), shallowly embedded in Lean.

Timestamps (Python timezone-aware datetimes, always normalized to UTC by the
code) are modelled as natural numbers with the usual order; dates as
year/month/day triples.  External collaborators (the storage engine and the
Spotify HTTP API) are modelled at the granularity the code observes them:
the engine keeps per-table row lists with primary-key upsert semantics, the
unique constraint on listens.played_at and the ck_listen_item_type CHECK
constraint of models.py; the fetched page is a parameter.
-/

namespace Spotistats

/-! ### Dates and release-date parsing (normalizer.py, parse_release_date) -/

/-- Python datetime.date value produced by parse_release_date. -/
structure SDate where
  year : Nat
  month : Nat
  day : Nat
deriving Repr, DecidableEq

/-- Number of days of a month, with the Gregorian leap rule used by
Python datetime when validating a day-of-month. -/
def daysInMonth (y m : Nat) : Nat :=
  if m = 2 then
    if y % 4 = 0 && (y % 100 ≠ 0 || y % 400 = 0) then 29 else 28
  else if m = 4 || m = 6 || m = 9 || m = 11 then 30
  else 31

/-- Validity of a calendar date as checked by the Python datetime constructor
(MINYEAR is 1; strptime year fields are four digits, so years stay below 10000). -/
def validDate (y m d : Nat) : Prop :=
  1 ≤ y ∧ 1 ≤ m ∧ m ≤ 12 ∧ 1 ≤ d ∧ d ≤ daysInMonth y m

instance (y m d : Nat) : Decidable (validDate y m d) := by
  unfold validDate; infer_instance

/-- Decimal digit test on a character. -/
def isDigitChar (c : Char) : Bool := decide ('0' ≤ c) && decide (c ≤ '9')

/-- Split a character list on the dash separator, keeping empty segments, the
way the strptime formats %Y-%m-%d, %Y-%m and %Y cut the input at their literal
dashes. -/
def splitDash : List Char → List (List Char)
  | [] => [[]]
  | c :: cs =>
    if c = '-' then [] :: splitDash cs
    else
      match splitDash cs with
      | [] => [[c]]
      | seg :: rest => (c :: seg) :: rest

/-- Decimal value of a digit segment, or none when the segment is empty or has
a non-digit character. -/
def digitsToNat? (cs : List Char) : Option Nat :=
  if cs.length ≠ 0 && cs.all isDigitChar then
    some (cs.foldl (fun acc c => acc * 10 + (c.toNat - 48)) 0)
  else none

/-- Year field of strptime format %Y: exactly four digits (CPython matches %Y
with a four-digit group). -/
def parseYearField (cs : List Char) : Option Nat :=
  if cs.length = 4 then digitsToNat? cs else none

/-- Month field of strptime format %m: one or two digits with value 1..12. -/
def parseMonthField (cs : List Char) : Option Nat := do
  if cs.length = 1 || cs.length = 2 then
    let n ← digitsToNat? cs
    if 1 ≤ n ∧ n ≤ 12 then some n else none
  else none

/-- Day field of strptime format %d: one or two digits with value 1..31; the
per-month upper bound is checked afterwards by the datetime constructor. -/
def parseDayField (cs : List Char) : Option Nat := do
  if cs.length = 1 || cs.length = 2 then
    let n ← digitsToNat? cs
    if 1 ≤ n ∧ n ≤ 31 then some n else none
  else none

/-- Precision day: strptime(date_str, %Y-%m-%d).date(), on the dash-split
segments; the datetime constructor validates MINYEAR and the day-of-month
upper bound. -/
def parseDayDate : List (List Char) → Option SDate
  | [ys, ms, ds] => do
      let y ← parseYearField ys
      let m ← parseMonthField ms
      let d ← parseDayField ds
      if 1 ≤ y ∧ d ≤ daysInMonth y m then some ⟨y, m, d⟩ else none
  | _ => none

/-- Precision month: strptime(date_str, %Y-%m).date().replace(day=1). -/
def parseMonthDate : List (List Char) → Option SDate
  | [ys, ms] => do
      let y ← parseYearField ys
      let m ← parseMonthField ms
      if 1 ≤ y then some ⟨y, m, 1⟩ else none
  | _ => none

/-- Precision year: strptime(date_str, %Y).date().replace(month=1, day=1). -/
def parseYearDate : List (List Char) → Option SDate
  | [ys] => do
      let y ← parseYearField ys
      if 1 ≤ y then some ⟨y, 1, 1⟩ else none
  | _ => none

/-- Embeds parse_release_date (normalizer.py lines 8-29).  Precision day parses
the string with strptime format %Y-%m-%d, precision month with %Y-%m pinning
the day to 1, precision year with %Y pinning month and day to 1; an empty
string, a format mismatch, an invalid calendar value or an unknown precision
yields none (the Python code logs and returns None, never raising). -/
def parse_release_date (date_str : String) (precision : String) : Option SDate :=
  if date_str = "" then none
  else if precision = "day" then parseDayDate (splitDash date_str.data)
  else if precision = "month" then parseMonthDate (splitDash date_str.data)
  else if precision = "year" then parseYearDate (splitDash date_str.data)
  else none

/-! ### Entity drafts and rows (models.py) -/

/-- Artist (models.py lines 9-18); used both as the normalizer draft and as the
stored row, exactly like the single SQLAlchemy class in the source. -/
structure Artist where
  artist_id : Option String
  name : Option String
  spotify_url : Option String
  image_url : Option String
  genres : Option (List String)
deriving Repr, DecidableEq

/-- Album (models.py lines 20-32). -/
structure Album where
  album_id : Option String
  name : Option String
  release_date : Option SDate
  album_type : Option String
  spotify_url : Option String
  image_url : Option String
  primary_artist_id : Option String
deriving Repr, DecidableEq

/-- Track (models.py lines 34-48); last_played_at is the nullable monotonic
timestamp column. -/
structure Track where
  track_id : Option String
  name : Option String
  duration_ms : Option Nat
  explicit : Option Bool
  popularity : Option Nat
  preview_url : Option String
  spotify_url : Option String
  album_id : Option String
  available_markets : Option (List String)
  last_played_at : Option Nat
deriving Repr, DecidableEq

/-- Listen draft (models.py lines 50-69) as built by the normalizer, before the
engine assigns the autoincrement listen_id. -/
structure Listen where
  played_at : Nat
  item_type : String
  track_id : Option String
  episode_id : Option String
  artist_id : Option String
  album_id : Option String
deriving Repr, DecidableEq

/-- Stored listens row: the draft plus the assigned surrogate key. -/
structure ListenRow extends Listen where
  listen_id : Nat
deriving Repr, DecidableEq

/-- Modelled from the spec: the PodcastSeries SQLAlchemy class is imported by
database.py, normalizer.py and the tests but its declaration is not under src;
fields follow spec section 3 (series_id PK, name, publisher, description,
image_url, profile_url). -/
structure PodcastSeries where
  series_id : String
  name : String
  publisher : Option String
  description : Option String
  image_url : Option String
  spotify_url : Option String
deriving Repr, DecidableEq

/-- Modelled from the spec: the PodcastEpisode SQLAlchemy class is imported by
database.py, normalizer.py and the tests but its declaration is not under src;
fields follow spec section 3 (episode_id PK, name, description, duration_ms,
explicit, release_date, profile_url, series_id). -/
structure PodcastEpisode where
  episode_id : String
  name : String
  description : Option String
  duration_ms : Option Nat
  explicit : Option Bool
  release_date : Option SDate
  spotify_url : Option String
  series_id : String
deriving Repr, DecidableEq

/-- Check constraint ck_listen_item_type of models.py lines 64-69, verbatim:
(item_type = track AND track_id IS NOT NULL AND episode_id IS NULL) OR
(item_type = episode AND episode_id IS NOT NULL AND track_id IS NULL). -/
def ck_listen_item_type (l : Listen) : Bool :=
  (l.item_type = "track" && l.track_id.isSome && l.episode_id.isNone)
  || (l.item_type = "episode" && l.episode_id.isSome && l.track_id.isNone)

/-! ### Raw play-history items (the loosely typed payload the normalizer reads)

A raw item is a nested Python dict.  Each dict key the code reads with .get is
an Option field (none for absent, and also for the falsy values empty string,
empty list and empty dict, which every read in the source treats like absence);
keys read with raw indexing are the same Option fields, and the embedding
raises KeyError when they are none.  The played_at value is modelled after
tokenization by datetime.fromisoformat(s.replace("Z", "+00:00")): none when
the key is missing or the string falsy, some none when present but
unparseable (ValueError), some (some t) when it parses to the instant t. -/

/-- One entry of an images array of the payload. -/
structure RawImage where
  url : Option String
deriving Repr, DecidableEq

/-- One entry of the artists array of a raw track payload. -/
structure RawArtist where
  id : Option String
  name : Option String
  external_urls_spotify : Option String
  genres : Option (List String)
deriving Repr, DecidableEq

/-- Empty dict fallback used for a missing primary artist. -/
def RawArtist.empty : RawArtist := ⟨none, none, none, none⟩

/-- Album sub-structure of a raw track payload. -/
structure RawAlbum where
  id : Option String
  name : Option String
  images : Option (List RawImage)
  release_date : Option String
  release_date_precision : Option String
  album_type : Option String
  external_urls_spotify : Option String
deriving Repr, DecidableEq

/-- Empty dict fallback used for a missing album. -/
def RawAlbum.empty : RawAlbum := ⟨none, none, none, none, none, none, none⟩

/-- Show sub-structure of a raw episode payload. -/
structure RawShow where
  id : Option String
  name : Option String
  publisher : Option String
  description : Option String
  images : Option (List RawImage)
  external_urls_spotify : Option String
deriving Repr, DecidableEq

/-- Track sub-structure of a raw play-history item (holds episode details too,
with the show key, when the item is a podcast play). -/
structure RawTrackData where
  type : Option String
  id : Option String
  name : Option String
  artists : Option (List RawArtist)
  album : Option RawAlbum
  duration_ms : Option Nat
  explicit : Option Bool
  popularity : Option Nat
  preview_url : Option String
  external_urls_spotify : Option String
  available_markets : Option (List String)
  «show» : Option RawShow
  description : Option String
  release_date : Option String
  release_date_precision : Option String
deriving Repr, DecidableEq

/-- One raw play-history item of a fetched page. -/
structure RawItem where
  track : Option RawTrackData
  played_at : Option (Option Nat)
deriving Repr, DecidableEq

/-! ### Normalizer (normalizer.py, SpotifyItemNormalizer) -/

/-- Python exceptions that the embedded code can raise. -/
inductive PyErr where
  | keyError (key : String)
  | valueError (what : String)
  | databaseError (msg : String)
deriving Repr, DecidableEq

/-- Tagged result dict of SpotifyItemNormalizer.normalize_item. -/
inductive NormalizedItem where
  | track (artist : Artist) (album : Album) (track : Track) (listen : Listen)
  | episode (series : PodcastSeries) (episode : PodcastEpisode) (listen : Listen)
deriving Repr, DecidableEq

/-- Listen draft carried by a normalizer result. -/
def NormalizedItem.listen : NormalizedItem → Listen
  | .track _ _ _ l => l
  | .episode _ _ l => l

/-- Embeds SpotifyItemNormalizer._normalize_track_data (normalizer.py lines
32-96): builds the Artist, Album, Track and Listen drafts for a track item.
Total: every dict access in this branch is a guarded .get. -/
def normalize_track_data (track_data : RawTrackData) (played_at_datetime : Nat) :
    Artist × Album × Track × Listen :=
  let primary_artist_data :=
    match track_data.artists with
    | some (a :: _) => a
    | _ => RawArtist.empty
  let artist_image_url :=
    match track_data.album with
    | some alb =>
        match alb.images with
        | some (img :: _) => img.url
        | _ => none
    | none => none
  let artist : Artist :=
    { artist_id := primary_artist_data.id
      name := primary_artist_data.name
      spotify_url := primary_artist_data.external_urls_spotify
      image_url := artist_image_url
      genres := some (primary_artist_data.genres.getD []) }
  let album_data := track_data.album.getD RawAlbum.empty
  let album_image_url :=
    match album_data.images with
    | some (img :: _) => img.url
    | _ => none
  let release_date_obj :=
    match album_data.release_date, album_data.release_date_precision with
    | some rd, some p => parse_release_date rd p
    | _, _ => none
  let album : Album :=
    { album_id := album_data.id
      name := album_data.name
      release_date := release_date_obj
      album_type := album_data.album_type
      spotify_url := album_data.external_urls_spotify
      image_url := album_image_url
      primary_artist_id := artist.artist_id }
  let track : Track :=
    { track_id := track_data.id
      name := track_data.name
      duration_ms := track_data.duration_ms
      explicit := track_data.explicit
      popularity := track_data.popularity
      preview_url := track_data.preview_url
      spotify_url := track_data.external_urls_spotify
      album_id := album.album_id
      available_markets := some (track_data.available_markets.getD [])
      last_played_at := some played_at_datetime }
  let listen : Listen :=
    { played_at := played_at_datetime
      item_type := "track"
      track_id := track.track_id
      episode_id := none
      artist_id := artist.artist_id
      album_id := album.album_id }
  (artist, album, track, listen)

/-- Embeds SpotifyItemNormalizer.normalize_episode_item (normalizer.py lines
98-140).  The source indexes the track, show, id and name keys and the
played_at timestamp without guards, so each missing one raises (KeyError, or
ValueError for an unparseable timestamp) instead of returning None. -/
def normalize_episode_item (item : RawItem) :
    Except PyErr (PodcastSeries × PodcastEpisode × Listen) :=
  match item.track with
  | none => .error (PyErr.keyError "track")
  | some episode_data =>
    match episode_data.«show» with
    | none => .error (PyErr.keyError "show")
    | some show_data =>
      match item.played_at with
      | none => .error (PyErr.keyError "played_at")
      | some none => .error (PyErr.valueError "played_at")
      | some (some played_at_datetime) =>
        match show_data.id with
        | none => .error (PyErr.keyError "id")
        | some show_id =>
          match show_data.name with
          | none => .error (PyErr.keyError "name")
          | some show_name =>
            match episode_data.id with
            | none => .error (PyErr.keyError "id")
            | some episode_id_val =>
              match episode_data.name with
              | none => .error (PyErr.keyError "name")
              | some episode_name =>
                let series_image_url :=
                  match show_data.images with
                  | some (img :: _) => img.url
                  | _ => none
                let series : PodcastSeries :=
                  { series_id := show_id
                    name := show_name
                    publisher := show_data.publisher
                    description := show_data.description
                    image_url := series_image_url
                    spotify_url := show_data.external_urls_spotify }
                let release_date_obj :=
                  match episode_data.release_date, episode_data.release_date_precision with
                  | some rd, some p => parse_release_date rd p
                  | _, _ => none
                let episode : PodcastEpisode :=
                  { episode_id := episode_id_val
                    name := episode_name
                    description := episode_data.description
                    duration_ms := episode_data.duration_ms
                    explicit := episode_data.explicit
                    release_date := release_date_obj
                    spotify_url := episode_data.external_urls_spotify
                    series_id := series.series_id }
                let listen : Listen :=
                  { played_at := played_at_datetime
                    item_type := "episode"
                    track_id := none
                    episode_id := some episode.episode_id
                    artist_id := none
                    album_id := none }
                .ok (series, episode, listen)

/-- Embeds SpotifyItemNormalizer.normalize_item (normalizer.py lines 142-188):
a missing track dict, a missing or unparseable played_at and an unknown type
tag all yield ok none (the Python code returns None); exceptions escaping the
episode branch propagate as errors, exactly as in the source where the call to
normalize_episode_item is not guarded. -/
def normalize_item (item : RawItem) : Except PyErr (Option NormalizedItem) :=
  match item.track with
  | none => .ok none
  | some track_data =>
    match item.played_at with
    | none => .ok none
    | some none => .ok none
    | some (some played_at_datetime) =>
      if track_data.type = some "track" then
        let r := normalize_track_data track_data played_at_datetime
        .ok (some (.track r.1 r.2.1 r.2.2.1 r.2.2.2))
      else if track_data.type = some "episode" then
        match normalize_episode_item item with
        | .error e => .error e
        | .ok (s, e, li) => .ok (some (.episode s e li))
      else
        .ok none

/-! ### Storage state and repository operations (database.py) -/

/-- Session-visible storage state: one row list per table of models.py, in
insertion order.  The same value serves as the durable state (after commit)
and as the open transaction state threaded through one run. -/
structure DB where
  artists : List Artist
  albums : List Album
  tracks : List Track
  podcast_series : List PodcastSeries
  podcast_episodes : List PodcastEpisode
  listens : List ListenRow
deriving Repr, DecidableEq

/-- Empty database. -/
def DB.empty : DB := ⟨[], [], [], [], [], []⟩

/-- Engine primitive behind INSERT .. ON CONFLICT (pk) DO UPDATE: when a row
satisfying the conflict predicate exists, the first such row is replaced by
merge applied to it, otherwise the fresh row is appended; the returned first
component is the RETURNING snapshot. -/
def replaceOrAppend {α : Type} (conflicts : α → Bool) (fresh : α) (merge : α → α) :
    List α → α × List α
  | [] => (fresh, [fresh])
  | x :: xs =>
    if conflicts x then (merge x, merge x :: xs)
    else
      ((replaceOrAppend conflicts fresh merge xs).1,
        x :: (replaceOrAppend conflicts fresh merge xs).2)

/-- Fault injection for the external storage engine.  The repo exercises two
engine-side failure shapes the deterministic state model cannot produce by
itself: an upsert whose RETURNING fetch yields no row (database.py returns
None then; simulated in the tests by mocking) and a non-integrity
SQLAlchemyError during a listen flush (connectivity; wrapped into
DatabaseError).  Which calls fail is chosen by this parameter; noFaults is the
normal behaviour. -/
structure FaultModel where
  artistFails : Artist → Bool
  albumFails : Album → Bool
  trackFails : Track → Bool
  insertFails : Listen → Bool
deriving Inhabited

/-- Fault-free storage engine. -/
def noFaults : FaultModel :=
  ⟨fun _ => false, fun _ => false, fun _ => false, fun _ => false⟩

/-- Embeds upsert_artist (database.py lines 107-138): genres are normalized
None to empty list before insert (PostgreSQL branch of the source), and on
conflict every mutable field is overwritten with the draft values; returns the
RETURNING snapshot, or none when the engine yields no row. -/
def upsert_artist (fm : FaultModel) (db : DB) (artist_obj : Artist) :
    Option Artist × DB :=
  if fm.artistFails artist_obj then (none, db)
  else
    let genres_to_insert := artist_obj.genres.getD []
    let fresh : Artist := { artist_obj with genres := some genres_to_insert }
    let merge : Artist → Artist := fun old =>
      { artist_id := old.artist_id
        name := artist_obj.name
        spotify_url := artist_obj.spotify_url
        image_url := artist_obj.image_url
        genres := some genres_to_insert }
    let res :=
      replaceOrAppend (fun r => r.artist_id = artist_obj.artist_id) fresh merge db.artists
    (some res.1, { db with artists := res.2 })

/-- Embeds upsert_album (database.py lines 140-161): on conflict every mutable
field is overwritten with the draft values. -/
def upsert_album (fm : FaultModel) (db : DB) (album_obj : Album) :
    Option Album × DB :=
  if fm.albumFails album_obj then (none, db)
  else
    let merge : Album → Album := fun old =>
      { album_id := old.album_id
        name := album_obj.name
        release_date := album_obj.release_date
        album_type := album_obj.album_type
        spotify_url := album_obj.spotify_url
        image_url := album_obj.image_url
        primary_artist_id := album_obj.primary_artist_id }
    let res :=
      replaceOrAppend (fun r => r.album_id = album_obj.album_id) album_obj merge db.albums
    (some res.1, { db with albums := res.2 })

/-- SQL comparison excluded.last_played_at > tracks.last_played_at of the CASE
expression in upsert_track: three-valued, false whenever either side is NULL
(the CASE then falls through to the stored value). -/
def sqlTsGt : Option Nat → Option Nat → Bool
  | some a, some b => b < a
  | _, _ => false

/-- Embeds upsert_track (database.py lines 163-208): available_markets are
normalized None to empty list before insert (PostgreSQL branch); on conflict
every mutable field is overwritten with the excluded (incoming) values except
last_played_at, which is CASE(excluded.last_played_at > tracks.last_played_at,
excluded.last_played_at, else tracks.last_played_at), computed inside the one
upsert statement. -/
def upsert_track (fm : FaultModel) (db : DB) (track_obj : Track) :
    Option Track × DB :=
  if fm.trackFails track_obj then (none, db)
  else
    let markets_to_insert := track_obj.available_markets.getD []
    let fresh : Track := { track_obj with available_markets := some markets_to_insert }
    let merge : Track → Track := fun old =>
      { track_id := old.track_id
        name := track_obj.name
        duration_ms := track_obj.duration_ms
        explicit := track_obj.explicit
        popularity := track_obj.popularity
        preview_url := track_obj.preview_url
        spotify_url := track_obj.spotify_url
        album_id := track_obj.album_id
        available_markets := some markets_to_insert
        last_played_at :=
          if sqlTsGt track_obj.last_played_at old.last_played_at then
            track_obj.last_played_at
          else old.last_played_at }
    let res :=
      replaceOrAppend (fun r => r.track_id = track_obj.track_id) fresh merge db.tracks
    (some res.1, { db with tracks := res.2 })

/-- Duplicate test of the unique constraint on listens.played_at. -/
def playedAtConflict (db : DB) (l : Listen) : Bool :=
  db.listens.any (fun r => r.played_at = l.played_at)

/-- Embeds insert_listen (database.py lines 211-232): session.add plus flush.
An IntegrityError raised by the flush - a duplicate played_at under the unique
constraint, and equally any other integrity violation such as
ck_listen_item_type, since the source catches the IntegrityError class as a
whole - is answered with the sentinel none and no exception; any other
SQLAlchemyError (connectivity, modelled by the fault parameter) is wrapped
into DatabaseError and re-raised. -/
def insert_listen (fm : FaultModel) (db : DB) (listen_obj : Listen) :
    Except PyErr (Option ListenRow × DB) :=
  if fm.insertFails listen_obj then
    .error (PyErr.databaseError "Failed to insert listen")
  else if playedAtConflict db listen_obj || !ck_listen_item_type listen_obj then
    .ok (none, db)
  else
    let row : ListenRow := { listen_obj with listen_id := db.listens.length + 1 }
    .ok (some row, { db with listens := db.listens ++ [row] })

/-- Embeds upsert_podcast_series (database.py lines 234-252): INSERT .. ON
CONFLICT (series_id) DO NOTHING; the input object is returned unconditionally
after execute, whether or not the row already existed. -/
def upsert_podcast_series (db : DB) (series_obj : PodcastSeries) :
    Option PodcastSeries × DB :=
  if db.podcast_series.any (fun r => r.series_id = series_obj.series_id) then
    (some series_obj, db)
  else
    (some series_obj, { db with podcast_series := db.podcast_series ++ [series_obj] })

/-- Embeds upsert_podcast_episode (database.py lines 254-271): INSERT .. ON
CONFLICT (episode_id) DO NOTHING; the input object is returned unconditionally
after execute. -/
def upsert_podcast_episode (db : DB) (episode_obj : PodcastEpisode) :
    Option PodcastEpisode × DB :=
  if db.podcast_episodes.any (fun r => r.episode_id = episode_obj.episode_id) then
    (some episode_obj, db)
  else
    (some episode_obj, { db with podcast_episodes := db.podcast_episodes ++ [episode_obj] })

/-- SQL MAX over the played_at column of the listens table. -/
def maxPlayedAt : List ListenRow → Option Nat
  | [] => none
  | l :: ls =>
    match maxPlayedAt ls with
    | none => some l.played_at
    | some m => some (max l.played_at m)

/-- Embeds get_max_played_at (database.py lines 95-105): the maximum played_at
across all listens rows, or none when the table is empty. -/
def get_max_played_at (db : DB) : Option Nat :=
  maxPlayedAt db.listens

/-! ### Ingestion orchestrator (main.py, process_spotify_data) -/

/-- High-water test of main.py line 97: true when a mark exists and the parsed
played_at is not strictly newer than it. -/
def notNewerThan (max_played_at_db : Option Nat) (played_at_dt : Nat) : Bool :=
  match max_played_at_db with
  | some m => decide (played_at_dt ≤ m)
  | none => false

/-- Mutable locals of the per-item loop of process_spotify_data: the open
session state and the two counters. -/
structure RunState where
  db : DB
  new_listens_count : Nat
  processed_items_count : Nat
deriving Repr, DecidableEq

/-- Embeds one iteration of the loop of process_spotify_data (main.py lines
79-160) on one raw item: skip items without a usable track dict or played_at,
skip (before normalization) items not strictly newer than the high-water mark,
normalize, upsert the catalog entities and insert the listen; an exception
from normalization or a wrapped storage error propagates out of the loop. -/
def processItem (fm : FaultModel) (max_played_at_db : Option Nat)
    (st : RunState) (item : RawItem) : Except PyErr RunState :=
  match item.track, item.played_at with
  | none, _ => .ok st
  | some _, none => .ok st
  | some _, some none => .ok st
  | some _, some (some played_at_dt) =>
    if notNewerThan max_played_at_db played_at_dt then
      .ok st
    else
      let st1 : RunState :=
        { st with processed_items_count := st.processed_items_count + 1 }
      match normalize_item item with
      | .error e => .error e
      | .ok none => .ok st1
      | .ok (some (.track artist_model album_model track_model listen_model)) =>
        let ra := upsert_artist fm st1.db artist_model
        let rb := upsert_album fm ra.2 album_model
        let rc := upsert_track fm rb.2 track_model
        match ra.1, rb.1, rc.1 with
        | some ar, some al, some tr =>
          let listen_obj : Listen :=
            { listen_model with
                artist_id := ar.artist_id
                album_id := al.album_id
                track_id := tr.track_id }
          match insert_listen fm rc.2 listen_obj with
          | .error e => .error e
          | .ok (some _, dbD) =>
            .ok { st1 with db := dbD, new_listens_count := st1.new_listens_count + 1 }
          | .ok (none, dbD) => .ok { st1 with db := dbD }
        | _, _, _ => .ok { st1 with db := rc.2 }
      | .ok (some (.episode series_model episode_model listen_model)) =>
        let rs := upsert_podcast_series st1.db series_model
        let rep := upsert_podcast_episode rs.2 episode_model
        match insert_listen fm rep.2 listen_model with
        | .error e => .error e
        | .ok (some _, dbC) =>
          .ok { st1 with db := dbC, new_listens_count := st1.new_listens_count + 1 }
        | .ok (none, dbC) => .ok { st1 with db := dbC }

/-- Folds processItem over a list of raw items, stopping at the first
exception, exactly like the for loop of main.py. -/
def processItems (fm : FaultModel) (max_played_at_db : Option Nat) :
    List RawItem → RunState → Except PyErr RunState
  | [], st => .ok st
  | item :: rest, st =>
    match processItem fm max_played_at_db st item with
    | .error e => .error e
    | .ok st' => processItems fm max_played_at_db rest st'

/-- Core of one run of process_spotify_data on a fetched page: read the
high-water mark from the durable state, then iterate the page reversed
(the remote returns items newest-first; the loop processes them oldest-first). -/
def runCore (fm : FaultModel) (durable : DB) (spotify_items : List RawItem) :
    Except PyErr RunState :=
  processItems fm (get_max_played_at durable) spotify_items.reverse ⟨durable, 0, 0⟩

/-- Embeds process_spotify_data (main.py lines 26-218) from the point where the
page has been fetched: the durable state visible after the run.  A commit is
issued only when at least one new listen was inserted; otherwise, and likewise
when an exception reached the run-level handler (rollback) or the final close,
the open transaction is discarded and the durable state is unchanged. -/
def process_spotify_data (fm : FaultModel) (durable : DB)
    (spotify_items : List RawItem) : DB :=
  match runCore fm durable spotify_items with
  | .ok st => if 0 < st.new_listens_count then st.db else durable
  | .error _ => durable

/-! ### Support lemmas: release-date parsing -/

lemma parseMonthField_bounds {cs : List Char} {n : Nat}
    (h : parseMonthField cs = some n) : 1 ≤ n ∧ n ≤ 12 := by
  unfold parseMonthField at h
  split at h
  · cases hD : digitsToNat? cs with
    | none => simp [hD] at h
    | some k =>
      simp only [hD, Option.bind_eq_bind, Option.some_bind] at h
      split at h
      · cases h; omega
      · cases h
  · cases h

lemma parseDayField_pos {cs : List Char} {n : Nat}
    (h : parseDayField cs = some n) : 1 ≤ n ∧ n ≤ 31 := by
  unfold parseDayField at h
  split at h
  · cases hD : digitsToNat? cs with
    | none => simp [hD] at h
    | some k =>
      simp only [hD, Option.bind_eq_bind, Option.some_bind] at h
      split at h
      · cases h; omega
      · cases h
  · cases h

lemma parseMonthDate_day {cs : List (List Char)} {d : SDate}
    (h : parseMonthDate cs = some d) : d.day = 1 := by
  rcases cs with _ | ⟨ys, _ | ⟨ms, _ | ⟨c, rest⟩⟩⟩ <;>
    simp only [parseMonthDate] at h
  · cases h
  · cases h
  · cases hY : parseYearField ys with
    | none => rw [hY] at h; cases h
    | some y =>
      cases hM : parseMonthField ms with
      | none => rw [hY, hM] at h; cases h
      | some m =>
        rw [hY, hM] at h
        simp only [Option.bind_eq_bind, Option.some_bind] at h
        split at h
        · cases h; rfl
        · cases h
  · cases h

lemma parseYearDate_pins {cs : List (List Char)} {d : SDate}
    (h : parseYearDate cs = some d) : d.month = 1 ∧ d.day = 1 := by
  rcases cs with _ | ⟨ys, _ | ⟨ms, rest⟩⟩ <;> simp only [parseYearDate] at h
  · cases h
  · cases hY : parseYearField ys with
    | none => rw [hY] at h; cases h
    | some y =>
      rw [hY] at h
      simp only [Option.bind_eq_bind, Option.some_bind] at h
      split at h
      · cases h; exact ⟨rfl, rfl⟩
      · cases h
  · cases h

lemma parseDayDate_valid {cs : List (List Char)} {d : SDate}
    (h : parseDayDate cs = some d) : validDate d.year d.month d.day := by
  rcases cs with _ | ⟨ys, _ | ⟨ms, _ | ⟨ds, _ | ⟨c, rest⟩⟩⟩⟩ <;>
    simp only [parseDayDate] at h
  · cases h
  · cases h
  · cases h
  · cases hY : parseYearField ys with
    | none => rw [hY] at h; cases h
    | some y =>
      cases hM : parseMonthField ms with
      | none => rw [hY, hM] at h; cases h
      | some m =>
        cases hD : parseDayField ds with
        | none => rw [hY, hM, hD] at h; cases h
        | some dd =>
          rw [hY, hM, hD] at h
          simp only [Option.bind_eq_bind, Option.some_bind] at h
          split at h
          · cases h
            rename_i hcond
            have hm := parseMonthField_bounds hM
            have hd := parseDayField_pos hD
            exact ⟨hcond.1, hm.1, hm.2, hd.1, hcond.2⟩
          · cases h
  · cases h

/-! ### Claim C8 -/

/-- C8: parse_release_date maps precision day to a full, calendar-valid
YYYY-MM-DD date, precision month to a date with the day pinned to 1, precision
year to a date with month and day pinned to 1; every unrecognized precision
value yields none, and the three spec vectors behave as stated (the function
is total, so it never raises). -/
theorem claim_C8_parse_release_date :
    (∀ s p, p ≠ "day" → p ≠ "month" → p ≠ "year" → parse_release_date s p = none)
    ∧ (∀ s d, parse_release_date s "month" = some d → d.day = 1)
    ∧ (∀ s d, parse_release_date s "year" = some d → d.month = 1 ∧ d.day = 1)
    ∧ (∀ s d, parse_release_date s "day" = some d → validDate d.year d.month d.day)
    ∧ parse_release_date "2011-04" "month" = some ⟨2011, 4, 1⟩
    ∧ parse_release_date "2011" "year" = some ⟨2011, 1, 1⟩
    ∧ parse_release_date "2011-13-01" "day" = none := by
  refine ⟨?_, ?_, ?_, ?_, by decide, by decide, by decide⟩
  · intro s p h1 h2 h3
    simp only [parse_release_date, if_neg h1, if_neg h2, if_neg h3]
    split <;> rfl
  · intro s d h
    unfold parse_release_date at h
    split at h
    · cases h
    · rw [if_neg (by decide : ¬("month" : String) = "day"), if_pos rfl] at h
      exact parseMonthDate_day h
  · intro s d h
    unfold parse_release_date at h
    split at h
    · cases h
    · rw [if_neg (by decide : ¬("year" : String) = "day"),
        if_neg (by decide : ¬("year" : String) = "month"), if_pos rfl] at h
      exact parseYearDate_pins h
  · intro s d h
    unfold parse_release_date at h
    split at h
    · cases h
    · rw [if_pos rfl] at h
      exact parseDayDate_valid h

/-! ### Support lemmas: upsert primitives -/

lemma replaceOrAppend_fst_of_find? {α : Type} (p : α → Bool) (fresh : α) (merge : α → α) :
    ∀ {rows : List α} {old : α}, rows.find? p = some old →
      (replaceOrAppend p fresh merge rows).1 = merge old := by
  intro rows
  induction rows with
  | nil => intro old h; cases h
  | cons x xs ih =>
    intro old h
    by_cases hx : p x
    · rw [List.find?_cons_of_pos _ hx] at h
      cases h
      simp [replaceOrAppend, hx]
    · rw [List.find?_cons_of_neg _ hx] at h
      simp only [replaceOrAppend, if_neg hx]
      exact ih h

lemma replaceOrAppend_snd_find? {α : Type} (p : α → Bool) (fresh : α) (merge : α → α) :
    ∀ {rows : List α} {old : α}, rows.find? p = some old → p (merge old) = true →
      (replaceOrAppend p fresh merge rows).2.find? p = some (merge old) := by
  intro rows
  induction rows with
  | nil => intro old h; cases h
  | cons x xs ih =>
    intro old h hm
    by_cases hx : p x
    · rw [List.find?_cons_of_pos _ hx] at h
      cases h
      simp only [replaceOrAppend, if_pos hx]
      exact List.find?_cons_of_pos _ hm
    · rw [List.find?_cons_of_neg _ hx] at h
      simp only [replaceOrAppend, if_neg hx]
      rw [List.find?_cons_of_neg _ hx]
      exact ih h hm

/-! ### Claim C1 -/

/-- C1: on a primary-key conflict, upsert_track overwrites every other mutable
field with the draft values while the stored last_played_at becomes
max(existing, incoming): an older incoming value leaves it unchanged, a
strictly newer one advances it, an equal one leaves it unchanged; and (second
conjunct) whatever the incoming draft carries, the stored last_played_at never
moves backward. -/
theorem claim_C1_upsert_track_monotonic :
    (∀ (fm : FaultModel) (db : DB) (t old : Track) (a b : Nat),
      fm.trackFails t = false →
      db.tracks.find? (fun r => r.track_id = t.track_id) = some old →
      old.last_played_at = some a → t.last_played_at = some b →
      ∃ row db2, upsert_track fm db t = (some row, db2)
        ∧ row.last_played_at = some (max a b)
        ∧ (b < a → row.last_played_at = old.last_played_at)
        ∧ (a < b → row.last_played_at = t.last_played_at)
        ∧ (a = b → row.last_played_at = old.last_played_at)
        ∧ row.name = t.name
        ∧ row.duration_ms = t.duration_ms
        ∧ row.explicit = t.explicit
        ∧ row.popularity = t.popularity
        ∧ row.preview_url = t.preview_url
        ∧ row.spotify_url = t.spotify_url
        ∧ row.album_id = t.album_id
        ∧ row.available_markets = some (t.available_markets.getD [])
        ∧ db2.tracks.find? (fun r => r.track_id = t.track_id) = some row)
    ∧ (∀ (fm : FaultModel) (db : DB) (t old row : Track) (db2 : DB) (a : Nat),
      fm.trackFails t = false →
      db.tracks.find? (fun r => r.track_id = t.track_id) = some old →
      upsert_track fm db t = (some row, db2) →
      old.last_played_at = some a →
      ∃ c, row.last_played_at = some c ∧ a ≤ c) := by
  constructor
  · intro fm db t old a b hf hfind ha hb
    have hp := List.find?_some hfind
    simp only [upsert_track, hf, Bool.false_eq_true, if_false]
    rw [replaceOrAppend_fst_of_find? _ _ _ hfind]
    refine ⟨_, _, rfl, ?_, ?_, ?_, ?_, rfl, rfl, rfl, rfl, rfl, rfl, rfl, rfl, ?_⟩
    · show (if sqlTsGt t.last_played_at old.last_played_at then t.last_played_at
          else old.last_played_at) = some (max a b)
      rw [ha, hb]
      simp only [sqlTsGt]
      rcases Nat.lt_or_ge a b with hab | hab
      · rw [if_pos (by simpa using hab), Nat.max_eq_right (Nat.le_of_lt hab)]
      · rw [if_neg (by simpa using Nat.not_lt.mpr hab), Nat.max_eq_left hab]
    · intro hlt
      show (if sqlTsGt t.last_played_at old.last_played_at then t.last_played_at
          else old.last_played_at) = old.last_played_at
      rw [ha, hb]
      simp only [sqlTsGt]
      rw [if_neg (by simpa using Nat.not_lt.mpr (Nat.le_of_lt hlt))]
    · intro hlt
      show (if sqlTsGt t.last_played_at old.last_played_at then t.last_played_at
          else old.last_played_at) = t.last_played_at
      rw [ha, hb]
      simp only [sqlTsGt]
      rw [if_pos (by simpa using hlt)]
    · intro heq
      show (if sqlTsGt t.last_played_at old.last_played_at then t.last_played_at
          else old.last_played_at) = old.last_played_at
      rw [ha, hb, heq]
      simp only [sqlTsGt]
      rw [if_neg (by simp)]
    · exact replaceOrAppend_snd_find? _ _ _ hfind (by simpa using of_decide_eq_true hp)
  · intro fm db t old row db2 a hf hfind hup ha
    simp only [upsert_track, hf, Bool.false_eq_true, if_false] at hup
    rw [replaceOrAppend_fst_of_find? _ _ _ hfind] at hup
    have hrow : row.last_played_at =
        (if sqlTsGt t.last_played_at old.last_played_at then t.last_played_at
          else old.last_played_at) := by
      have := congrArg Prod.fst hup
      simp only at this
      cases this
      rfl
    rw [ha] at hrow
    cases hlt : t.last_played_at with
    | none =>
      rw [hlt] at hrow
      simp only [sqlTsGt, if_false] at hrow
      exact ⟨a, hrow, Nat.le_refl a⟩
    | some b =>
      rw [hlt] at hrow
      simp only [sqlTsGt] at hrow
      by_cases hab : a < b
      · rw [if_pos (by simpa using hab)] at hrow
        exact ⟨b, hrow, Nat.le_of_lt hab⟩
      · rw [if_neg (by simpa using hab)] at hrow
        exact ⟨a, hrow, Nat.le_refl a⟩

/-- Existing stored track used by the C1 witness. -/
def trackOldW : Track :=
  { track_id := some "t1", name := some "Old Name", duration_ms := some 100
    explicit := some false, popularity := some 10, preview_url := some "op"
    spotify_url := some "ou", album_id := some "oal"
    available_markets := some ["FR"], last_played_at := some 5 }

/-- Incoming track draft used by the C1 witness (older last_played_at). -/
def trackDraftW : Track :=
  { track_id := some "t1", name := some "New Name", duration_ms := some 200
    explicit := some true, popularity := some 20, preview_url := some "np"
    spotify_url := some "nu", album_id := some "nal"
    available_markets := some ["US"], last_played_at := some 3 }

/-- Database holding the existing stored track for the C1 witness. -/
def trackDBW : DB := { DB.empty with tracks := [trackOldW] }

/-- Witness for C1: the theorem applied at a concrete conflicting upsert whose
incoming last_played_at is older than the stored one. -/
theorem claim_C1_upsert_track_monotonic_witness :
    (∃ row db2, upsert_track noFaults trackDBW trackDraftW = (some row, db2)
      ∧ row.last_played_at = some (max 5 3)
      ∧ (3 < 5 → row.last_played_at = trackOldW.last_played_at)
      ∧ (5 < 3 → row.last_played_at = trackDraftW.last_played_at)
      ∧ (5 = 3 → row.last_played_at = trackOldW.last_played_at)
      ∧ row.name = trackDraftW.name
      ∧ row.duration_ms = trackDraftW.duration_ms
      ∧ row.explicit = trackDraftW.explicit
      ∧ row.popularity = trackDraftW.popularity
      ∧ row.preview_url = trackDraftW.preview_url
      ∧ row.spotify_url = trackDraftW.spotify_url
      ∧ row.album_id = trackDraftW.album_id
      ∧ row.available_markets = some (trackDraftW.available_markets.getD [])
      ∧ db2.tracks.find? (fun r => r.track_id = trackDraftW.track_id) = some row) :=
  claim_C1_upsert_track_monotonic.1 noFaults trackDBW trackDraftW trackOldW 5 3
    rfl (by decide) rfl rfl

/-! ### Support lemmas: insert_listen -/

lemma insert_listen_fault {fm : FaultModel} {db : DB} {l : Listen}
    (h : fm.insertFails l = true) :
    insert_listen fm db l = .error (PyErr.databaseError "Failed to insert listen") := by
  simp [insert_listen, h]

lemma insert_listen_dup {fm : FaultModel} {db : DB} {l : Listen}
    (hf : fm.insertFails l = false) (hc : playedAtConflict db l = true) :
    insert_listen fm db l = .ok (none, db) := by
  simp [insert_listen, hf, hc]

lemma insert_listen_ckfail {fm : FaultModel} {db : DB} {l : Listen}
    (hf : fm.insertFails l = false) (hck : ck_listen_item_type l = false) :
    insert_listen fm db l = .ok (none, db) := by
  simp [insert_listen, hf, hck]

lemma insert_listen_success {fm : FaultModel} {db : DB} {l : Listen}
    (hf : fm.insertFails l = false) (hc : playedAtConflict db l = false)
    (hck : ck_listen_item_type l = true) :
    insert_listen fm db l =
      .ok (some ⟨l, db.listens.length + 1⟩,
        { db with listens := db.listens ++ [⟨l, db.listens.length + 1⟩] }) := by
  simp [insert_listen, hf, hc, hck]

/-! ### Claim C2 -/

/-- Listen draft violating ck_listen_item_type (item_type track with a null
track_id), used to exhibit the broad IntegrityError handling. -/
def listenBadW : Listen :=
  { played_at := 7, item_type := "track", track_id := none, episode_id := none
    artist_id := none, album_id := none }

/-- Counterexample to C2 as stated: on an empty database this insert violates
the check constraint and not the played_at uniqueness constraint, yet
insert_listen answers the not-inserted sentinel instead of propagating a
StorageError, because the source catches the whole IntegrityError class. -/
theorem claim_C2_counterexample :
    playedAtConflict DB.empty listenBadW = false
    ∧ ck_listen_item_type listenBadW = false
    ∧ insert_listen noFaults DB.empty listenBadW = .ok (none, DB.empty) :=
  ⟨rfl, rfl, rfl⟩

/-- C2 (amended): insert_listen answers the not-inserted sentinel for every
IntegrityError raised by the flush - the expected duplicate played_at and
equally any other integrity violation such as the check constraint - and
propagates a DatabaseError wrapping the cause only for storage failures that
are not integrity errors (connectivity); when nothing fails the row is
inserted and returned. -/
theorem claim_C2_insert_listen_policy :
    (∀ (fm : FaultModel) (db : DB) (l : Listen),
      fm.insertFails l = false → playedAtConflict db l = true →
      insert_listen fm db l = .ok (none, db))
    ∧ (∀ (fm : FaultModel) (db : DB) (l : Listen),
      fm.insertFails l = false → ck_listen_item_type l = false →
      insert_listen fm db l = .ok (none, db))
    ∧ (∀ (fm : FaultModel) (db : DB) (l : Listen),
      fm.insertFails l = true →
      insert_listen fm db l = .error (PyErr.databaseError "Failed to insert listen"))
    ∧ (∀ (fm : FaultModel) (db : DB) (l : Listen),
      fm.insertFails l = false → playedAtConflict db l = false →
      ck_listen_item_type l = true →
      ∃ row db2, insert_listen fm db l = .ok (some row, db2)
        ∧ row.played_at = l.played_at) :=
  ⟨fun _ _ _ hf hc => insert_listen_dup hf hc,
   fun _ _ _ hf hck => insert_listen_ckfail hf hck,
   fun _ _ _ hf => insert_listen_fault hf,
   fun _ db l hf hc hck =>
     ⟨⟨l, db.listens.length + 1⟩, _, insert_listen_success hf hc hck, rfl⟩⟩

/-- Valid listen draft used by the C2 witness. -/
def listenGoodW : Listen :=
  { played_at := 7, item_type := "track", track_id := some "t1", episode_id := none
    artist_id := some "a1", album_id := some "al1" }

/-- Database already holding a listen at the same played_at as the C2 witness
draft. -/
def dbWithListenW : DB := { DB.empty with listens := [⟨listenGoodW, 1⟩] }

/-- Storage engine whose listen flushes fail with a non-integrity error. -/
def connFaults : FaultModel :=
  { noFaults with insertFails := fun _ => true }

/-- Witness for the amended C2 at concrete inputs: a duplicate played_at, a
check-constraint violation, a connectivity failure and a clean insert. -/
theorem claim_C2_insert_listen_policy_witness :
    insert_listen noFaults dbWithListenW listenGoodW = .ok (none, dbWithListenW)
    ∧ insert_listen noFaults DB.empty listenBadW = .ok (none, DB.empty)
    ∧ insert_listen connFaults DB.empty listenGoodW =
        .error (PyErr.databaseError "Failed to insert listen")
    ∧ (∃ row db2, insert_listen noFaults DB.empty listenGoodW = .ok (some row, db2)
        ∧ row.played_at = listenGoodW.played_at) :=
  ⟨claim_C2_insert_listen_policy.1 noFaults dbWithListenW listenGoodW rfl rfl,
   claim_C2_insert_listen_policy.2.1 noFaults DB.empty listenBadW rfl rfl,
   claim_C2_insert_listen_policy.2.2.1 connFaults DB.empty listenGoodW rfl,
   claim_C2_insert_listen_policy.2.2.2 noFaults DB.empty listenGoodW rfl rfl rfl⟩

/-! ### Claim C5 -/

/-- Listen draft with item_type episode and a non-null artist_id; the repo test
test_insert_invalid_listen_episode_with_artist_id expects the storage layer to
reject it. -/
def listenEpWithArtistW : Listen :=
  { played_at := 100, item_type := "episode", track_id := none
    episode_id := some "ep3", artist_id := some "a3", album_id := none }

/-- Listen draft with item_type track and a null album_id; the repo test
test_insert_invalid_listen_track_without_album_id expects the storage layer to
reject it. -/
def listenTrackNoAlbumW : Listen :=
  { played_at := 101, item_type := "track", track_id := some "t9"
    episode_id := none, artist_id := some "a9", album_id := none }

/-- C5 is contradicted by the code: ck_listen_item_type (models.py line 66)
constrains only track_id and episode_id, so an episode listen with a non-null
artist_id, and a track listen with a null album_id, both satisfy the
constraint and are accepted by the storage layer, while the spec and the
repo's own tests require them to fail. -/
theorem claim_C5_check_constraint_gap :
    ck_listen_item_type listenEpWithArtistW = true
    ∧ insert_listen noFaults DB.empty listenEpWithArtistW =
        .ok (some ⟨listenEpWithArtistW, 1⟩,
          { DB.empty with listens := [⟨listenEpWithArtistW, 1⟩] })
    ∧ ck_listen_item_type listenTrackNoAlbumW = true
    ∧ insert_listen noFaults DB.empty listenTrackNoAlbumW =
        .ok (some ⟨listenTrackNoAlbumW, 1⟩,
          { DB.empty with listens := [⟨listenTrackNoAlbumW, 1⟩] }) :=
  ⟨rfl, rfl, rfl, rfl⟩

/-! ### Claim C6 -/

/-- Raw item tagged as an episode whose embedded payload lacks the show
sub-structure. -/
def epNoShowW : RawItem :=
  { track := some
      { type := some "episode", id := some "e9", name := some "E"
        artists := none, album := none, duration_ms := none, explicit := none
        popularity := none, preview_url := none, external_urls_spotify := none
        available_markets := none, «show» := none, description := none
        release_date := none, release_date_precision := none }
    played_at := some (some 5) }

/-- Counterexample to C6 as stated: on an episode item without the show
sub-structure the normalizer raises a KeyError (the unguarded indexing at
normalizer.py line 100) instead of returning the null result. -/
theorem claim_C6_counterexample :
    normalize_item epNoShowW = .error (PyErr.keyError "show") := rfl

/-- C6 (amended): for every raw item tagged as an episode whose payload lacks
the show sub-structure (and whose played_at parses, so normalization reaches
the episode branch), normalize_item raises a KeyError for the show key, which
propagates to the caller and aborts the page, instead of returning null. -/
theorem claim_C6_missing_show_raises :
    ∀ (item : RawItem) (td : RawTrackData) (t : Nat),
      item.track = some td → td.type = some "episode" →
      item.played_at = some (some t) → td.«show» = none →
      normalize_item item = .error (PyErr.keyError "show") := by
  intro item td t hT hTy hP hS
  simp only [normalize_item, hT, hP]
  rw [if_neg (by simp [hTy]), if_pos hTy]
  simp only [normalize_episode_item, hT, hS]

/-- Witness for the amended C6 at the concrete show-less episode item. -/
theorem claim_C6_missing_show_raises_witness :
    normalize_item epNoShowW = .error (PyErr.keyError "show") :=
  claim_C6_missing_show_raises epNoShowW _ 5 rfl rfl rfl rfl

/-! ### Support lemmas: orchestrator filter -/

lemma highWaterFilter_false {m : Option Nat} {t : Nat} (h : ∀ mv, m = some mv → mv < t) :
    notNewerThan m t = false := by
  cases m with
  | none => rfl
  | some mv => simpa [notNewerThan] using Nat.not_le.mpr (h mv rfl)

/-! ### Claim C10 -/

/-- C10: the podcast upserts with do-nothing conflict handling always return
the input draft, never a null or failure signal, whether or not the row
already existed; consequently (third conjunct) the episode branch of the
orchestrator always proceeds from the two upserts to the attempt to insert
the Listen row. -/
theorem claim_C10_podcast_upserts_total :
    (∀ (db : DB) (s : PodcastSeries), (upsert_podcast_series db s).1 = some s)
    ∧ (∀ (db : DB) (e : PodcastEpisode), (upsert_podcast_episode db e).1 = some e)
    ∧ (∀ (fm : FaultModel) (m : Option Nat) (st : RunState) (item : RawItem)
        (td : RawTrackData) (t : Nat) (s : PodcastSeries) (e : PodcastEpisode) (li : Listen),
      item.track = some td → item.played_at = some (some t) →
      (∀ mv, m = some mv → mv < t) →
      normalize_item item = .ok (some (.episode s e li)) →
      processItem fm m st item =
        (match insert_listen fm
            (upsert_podcast_episode (upsert_podcast_series st.db s).2 e).2 li with
          | .error er => .error er
          | .ok (some _, dbC) =>
            .ok ⟨dbC, st.new_listens_count + 1, st.processed_items_count + 1⟩
          | .ok (none, dbC) =>
            .ok ⟨dbC, st.new_listens_count, st.processed_items_count + 1⟩)) := by
  refine ⟨fun db s => ?_, fun db e => ?_, ?_⟩
  · unfold upsert_podcast_series
    split <;> rfl
  · unfold upsert_podcast_episode
    split <;> rfl
  · intro fm m st item td t s e li hT hP hm hN
    simp only [processItem, hT, hP, highWaterFilter_false hm, Bool.false_eq_true,
      if_false, hN]

/-- Concrete episode raw item used by the C10 witness. -/
def epItemW : RawItem :=
  { track := some
      { type := some "episode", id := some "ep1", name := some "EpName"
        artists := none, album := none, duration_ms := some 100, explicit := some false
        popularity := none, preview_url := none, external_urls_spotify := some "eu"
        available_markets := none
        «show» := some { id := some "sh1", name := some "ShowName", publisher := some "Pub"
                         description := some "Desc", images := some [{ url := some "img" }]
                         external_urls_spotify := some "su" }
        description := some "ed", release_date := some "2011-04"
        release_date_precision := some "month" }
    played_at := some (some 42) }

/-- Series draft the normalizer builds for epItemW. -/
def seriesW : PodcastSeries :=
  { series_id := "sh1", name := "ShowName", publisher := some "Pub"
    description := some "Desc", image_url := some "img", spotify_url := some "su" }

/-- Episode draft the normalizer builds for epItemW. -/
def episodeW : PodcastEpisode :=
  { episode_id := "ep1", name := "EpName", description := some "ed"
    duration_ms := some 100, explicit := some false
    release_date := some ⟨2011, 4, 1⟩, spotify_url := some "eu", series_id := "sh1" }

/-- Listen draft the normalizer builds for epItemW. -/
def listenEpW : Listen :=
  { played_at := 42, item_type := "episode", track_id := none
    episode_id := some "ep1", artist_id := none, album_id := none }

/-- Witness for C10: the theorem applied at the concrete episode item on an
empty database in a first run (no high-water mark). -/
theorem claim_C10_podcast_upserts_total_witness :
    (upsert_podcast_series DB.empty seriesW).1 = some seriesW
    ∧ (upsert_podcast_episode DB.empty episodeW).1 = some episodeW
    ∧ processItem noFaults none ⟨DB.empty, 0, 0⟩ epItemW =
        (match insert_listen noFaults
            (upsert_podcast_episode
              (upsert_podcast_series (DB.empty : DB) seriesW).2 episodeW).2 listenEpW with
          | .error er => .error er
          | .ok (some _, dbC) => .ok ⟨dbC, 0 + 1, 0 + 1⟩
          | .ok (none, dbC) => .ok ⟨dbC, 0, 0 + 1⟩) :=
  ⟨claim_C10_podcast_upserts_total.1 DB.empty seriesW,
   claim_C10_podcast_upserts_total.2.1 DB.empty episodeW,
   claim_C10_podcast_upserts_total.2.2 noFaults none ⟨DB.empty, 0, 0⟩ epItemW _ 42
     seriesW episodeW listenEpW rfl rfl (fun mv h => by cases h) rfl⟩

/-! ### Support lemmas: upserts leave the listens table alone -/

lemma upsert_artist_listens (fm : FaultModel) (db : DB) (a : Artist) :
    (upsert_artist fm db a).2.listens = db.listens := by
  unfold upsert_artist; split <;> rfl

lemma upsert_album_listens (fm : FaultModel) (db : DB) (al : Album) :
    (upsert_album fm db al).2.listens = db.listens := by
  unfold upsert_album; split <;> rfl

lemma upsert_track_listens (fm : FaultModel) (db : DB) (tr : Track) :
    (upsert_track fm db tr).2.listens = db.listens := by
  unfold upsert_track; split <;> rfl

lemma upsert_podcast_series_listens (db : DB) (s : PodcastSeries) :
    (upsert_podcast_series db s).2.listens = db.listens := by
  unfold upsert_podcast_series; split <;> rfl

lemma upsert_podcast_episode_listens (db : DB) (e : PodcastEpisode) :
    (upsert_podcast_episode db e).2.listens = db.listens := by
  unfold upsert_podcast_episode; split <;> rfl

/-! ### Claim C4 -/

/-- C4: with an existing high-water mark M, an item whose parsed played_at is
at most M is skipped before normalization, leaving the whole run state
untouched (so no Listen row arises from it); and (second conjunct) whenever an
item changes the listens table at all, its played_at was strictly newer
than M. -/
theorem claim_C4_high_water_filter :
    (∀ (fm : FaultModel) (M : Nat) (st : RunState) (item : RawItem) (t : Nat),
      item.played_at = some (some t) → t ≤ M →
      processItem fm (some M) st item = .ok st)
    ∧ (∀ (fm : FaultModel) (M : Nat) (st : RunState) (item : RawItem) (st' : RunState),
      processItem fm (some M) st item = .ok st' →
      st'.db.listens ≠ st.db.listens →
      ∃ t, item.played_at = some (some t) ∧ M < t) := by
  constructor
  · intro fm M st item t hP hle
    cases hT : item.track with
    | none => simp [processItem, hT]
    | some td => simp [processItem, hT, hP, notNewerThan, hle]
  · intro fm M st item st' hrun hne
    cases hT : item.track with
    | none =>
      simp only [processItem, hT] at hrun
      cases hrun
      exact absurd rfl hne
    | some td =>
      cases hP : item.played_at with
      | none =>
        simp only [processItem, hT, hP] at hrun
        cases hrun
        exact absurd rfl hne
      | some po =>
        cases po with
        | none =>
          simp only [processItem, hT, hP] at hrun
          cases hrun
          exact absurd rfl hne
        | some t =>
          refine ⟨t, rfl, ?_⟩
          by_contra hM
          have hle : t ≤ M := Nat.not_lt.mp hM
          simp only [processItem, hT, hP, notNewerThan, decide_eq_true hle,
            if_true] at hrun
          cases hrun
          exact absurd rfl hne

/-- Raw track item with full catalog data, used by the page-level claims. -/
def trackRawItemW (tid : String) (t : Nat) : RawItem :=
  { track := some
      { type := some "track", id := some tid, name := some ("name-" ++ tid)
        artists := some [{ id := some ("ar-" ++ tid), name := some ("artist-" ++ tid)
                           external_urls_spotify := some "aurl", genres := some ["g"] }]
        album := some { id := some ("al-" ++ tid), name := some ("album-" ++ tid)
                        images := some [{ url := some "img" }]
                        release_date := some "2011-04"
                        release_date_precision := some "month"
                        album_type := some "album", external_urls_spotify := some "alurl" }
        duration_ms := some 1000, explicit := some false, popularity := some 5
        preview_url := some "p", external_urls_spotify := some "turl"
        available_markets := some ["US"], «show» := none
        description := none, release_date := none, release_date_precision := none }
    played_at := some (some t) }

/-- Run state reached after processing trackRawItemW t1 at instant 12 from the
empty state (used by the C4 witness). -/
def stAfterT12W : RunState :=
  { db :=
      { artists := [{ artist_id := some "ar-t1", name := some "artist-t1"
                      spotify_url := some "aurl", image_url := some "img"
                      genres := some ["g"] }]
        albums := [{ album_id := some "al-t1", name := some "album-t1"
                     release_date := some ⟨2011, 4, 1⟩, album_type := some "album"
                     spotify_url := some "alurl", image_url := some "img"
                     primary_artist_id := some "ar-t1" }]
        tracks := [{ track_id := some "t1", name := some "name-t1"
                     duration_ms := some 1000, explicit := some false
                     popularity := some 5, preview_url := some "p"
                     spotify_url := some "turl", album_id := some "al-t1"
                     available_markets := some ["US"], last_played_at := some 12 }]
        podcast_series := [], podcast_episodes := []
        listens := [⟨{ played_at := 12, item_type := "track", track_id := some "t1"
                       episode_id := none, artist_id := some "ar-t1"
                       album_id := some "al-t1" }, 1⟩] }
    new_listens_count := 1
    processed_items_count := 1 }

/-- Witness for C4: on a state with high-water mark 10, an item played at 5 is
skipped untouched, and a processed item that did append a listen row was
played strictly after 10. -/
theorem claim_C4_high_water_filter_witness :
    processItem noFaults (some 10) ⟨DB.empty, 0, 0⟩ (trackRawItemW "t0" 5) =
      .ok ⟨DB.empty, 0, 0⟩
    ∧ (∃ t, (trackRawItemW "t1" 12).played_at = some (some t) ∧ 10 < t) := by
  constructor
  · exact claim_C4_high_water_filter.1 noFaults 10 ⟨DB.empty, 0, 0⟩
      (trackRawItemW "t0" 5) 5 rfl (by decide)
  · exact claim_C4_high_water_filter.2 noFaults 10 ⟨DB.empty, 0, 0⟩
      (trackRawItemW "t1" 12) stAfterT12W (by rfl) (by decide)

/-! ### Claim C7 -/

/-- C7: on a track item whose artist, album or track upsert returns no result,
the orchestrator produces no Listen row for that item (the listens table and
the new-listen counter are untouched) and does not abort: folding the loop
over the page simply continues with the remaining items from the state left
by the failed item. -/
theorem claim_C7_upsert_failure_skips_item :
    ∀ (fm : FaultModel) (m : Option Nat) (st : RunState) (item : RawItem)
      (td : RawTrackData) (t : Nat) (a : Artist) (al : Album) (tr : Track) (li : Listen)
      (rest : List RawItem),
      item.track = some td → item.played_at = some (some t) →
      (∀ mv, m = some mv → mv < t) →
      normalize_item item = .ok (some (.track a al tr li)) →
      (fm.artistFails a = true ∨ fm.albumFails al = true ∨ fm.trackFails tr = true) →
      ∃ db2,
        processItem fm m st item =
          .ok ⟨db2, st.new_listens_count, st.processed_items_count + 1⟩
        ∧ db2.listens = st.db.listens
        ∧ processItems fm m (item :: rest) st =
            processItems fm m rest
              ⟨db2, st.new_listens_count, st.processed_items_count + 1⟩ := by
  intro fm m st item td t a al tr li rest hT hP hm hN hFail
  have hstep : processItem fm m st item =
      .ok ⟨(upsert_track fm (upsert_album fm (upsert_artist fm st.db a).2 al).2 tr).2,
        st.new_listens_count, st.processed_items_count + 1⟩ := by
    simp only [processItem, hT, hP, highWaterFilter_false hm, Bool.false_eq_true,
      if_false, hN]
    cases hA : fm.artistFails a <;> cases hB : fm.albumFails al <;>
      cases hC : fm.trackFails tr
    case false.false.false =>
      rcases hFail with h | h | h <;> simp_all
    all_goals simp [upsert_artist, upsert_album, upsert_track, hA, hB, hC]
  refine ⟨_, hstep, ?_, ?_⟩
  · rw [upsert_track_listens, upsert_album_listens, upsert_artist_listens]
  · simp only [processItems, hstep]

/-- Storage engine whose album upserts yield no RETURNING row. -/
def albumFailFM : FaultModel := { noFaults with albumFails := fun _ => true }

/-- Witness for C7: the theorem applied with a simulated album-upsert failure
on a concrete track item, in a first run over a two-item page. -/
theorem claim_C7_upsert_failure_skips_item_witness :
    ∃ db2,
      processItem albumFailFM none ⟨DB.empty, 0, 0⟩ (trackRawItemW "t1" 12) =
        .ok ⟨db2, 0, 0 + 1⟩
      ∧ db2.listens = (DB.empty : DB).listens
      ∧ processItems albumFailFM none (trackRawItemW "t1" 12 :: [trackRawItemW "t2" 13])
            ⟨DB.empty, 0, 0⟩ =
          processItems albumFailFM none [trackRawItemW "t2" 13] ⟨db2, 0, 0 + 1⟩ :=
  claim_C7_upsert_failure_skips_item albumFailFM none ⟨DB.empty, 0, 0⟩
    (trackRawItemW "t1" 12) _ 12
    ⟨some "ar-t1", some "artist-t1", some "aurl", some "img", some ["g"]⟩
    ⟨some "al-t1", some "album-t1", some ⟨2011, 4, 1⟩, some "album", some "alurl",
      some "img", some "ar-t1"⟩
    ⟨some "t1", some "name-t1", some 1000, some false, some 5, some "p", some "turl",
      some "al-t1", some ["US"], some 12⟩
    ⟨12, "track", some "t1", none, some "ar-t1", some "al-t1"⟩
    [trackRawItemW "t2" 13]
    rfl rfl (fun mv h => by cases h) rfl (Or.inr (Or.inl rfl))

/-! ### Claim C3 -/

/-- Page as returned by the remote API, newest first: plays at 12, 11, 10. -/
def pageW : List RawItem :=
  [trackRawItemW "t3" 12, trackRawItemW "t2" 11, trackRawItemW "t1" 10]

/-- C3: ingesting the newest-first page [12, 11, 10] into an empty store
processes the items oldest-first and commits exactly three Listen rows, in
insertion order 10, 11, 12 with ascending surrogate keys, after which
get_max_played_at returns the newest instant 12. -/
theorem claim_C3_oldest_first_and_highwater :
    (process_spotify_data noFaults DB.empty pageW).listens.map
        (fun r => (r.played_at, r.listen_id, r.track_id)) =
      [(10, 1, some "t1"), (11, 2, some "t2"), (12, 3, some "t3")]
    ∧ get_max_played_at (process_spotify_data noFaults DB.empty pageW) = some 12 :=
  ⟨rfl, rfl⟩

/-! ### Support lemmas: the high-water mark bounds every stored listen -/

lemma maxPlayedAt_eq_none {ls : List ListenRow} (h : maxPlayedAt ls = none) :
    ls = [] := by
  cases ls with
  | nil => rfl
  | cons l ls =>
    simp only [maxPlayedAt] at h
    cases hm : maxPlayedAt ls <;> rw [hm] at h <;> cases h

lemma maxPlayedAt_le {ls : List ListenRow} {m : Nat} (h : maxPlayedAt ls = some m) :
    ∀ r ∈ ls, r.played_at ≤ m := by
  induction ls generalizing m with
  | nil => intro r hr; cases hr
  | cons l ls ih =>
    intro r hr
    simp only [maxPlayedAt] at h
    cases hm : maxPlayedAt ls with
    | none =>
      rw [hm] at h
      cases h
      rw [maxPlayedAt_eq_none hm] at hr
      rcases List.mem_cons.mp hr with h1 | h1
      · subst h1; exact Nat.le_refl _
      · cases h1
    | some m0 =>
      rw [hm] at h
      cases h
      rcases List.mem_cons.mp hr with h1 | h1
      · subst h1; exact Nat.le_max_left _ _
      · exact Nat.le_trans (ih hm r h1) (Nat.le_max_right _ _)

lemma maxPlayedAt_mem {ls : List ListenRow} {m : Nat} (h : maxPlayedAt ls = some m) :
    ∃ r ∈ ls, r.played_at = m := by
  induction ls generalizing m with
  | nil => cases h
  | cons l ls ih =>
    simp only [maxPlayedAt] at h
    cases hm : maxPlayedAt ls with
    | none =>
      rw [hm] at h
      cases h
      exact ⟨l, List.mem_cons_self _ _, rfl⟩
    | some m0 =>
      rw [hm] at h
      cases h
      rcases Nat.le_total l.played_at m0 with hle | hle
      · obtain ⟨r, hr, hrm⟩ := ih hm
        exact ⟨r, List.mem_cons_of_mem _ hr, by rw [hrm, Nat.max_eq_right hle]⟩
      · exact ⟨l, List.mem_cons_self _ _, (Nat.max_eq_left hle).symm⟩

lemma mem_listens_not_newer {L : List ListenRow} {row : ListenRow} (hmem : row ∈ L) :
    notNewerThan (maxPlayedAt L) row.played_at = true := by
  cases hm : maxPlayedAt L with
  | none =>
    rw [maxPlayedAt_eq_none hm] at hmem
    cases hmem
  | some m => simpa [notNewerThan] using maxPlayedAt_le hm row hmem

lemma filter_false_of_le {m1 m2 : Option Nat} {t : Nat}
    (h2 : notNewerThan m2 t = false)
    (h : ∀ mv, m1 = some mv → notNewerThan m2 mv = true) :
    notNewerThan m1 t = false := by
  cases m1 with
  | none => rfl
  | some mv =>
    have h1 := h mv rfl
    cases m2 with
    | none => simp [notNewerThan] at h1
    | some m2v =>
      simp only [notNewerThan, decide_eq_true_eq] at h1
      simp only [notNewerThan, decide_eq_false_iff_not] at h2 ⊢
      omega

/-! ### Support lemmas: exact shapes of the insert outcomes -/

lemma playedAtConflict_eq_true {db : DB} {l : Listen} :
    playedAtConflict db l = true ↔ ∃ r ∈ db.listens, r.played_at = l.played_at := by
  simp [playedAtConflict, List.any_eq_true]

lemma insert_listen_ok_cases {fm : FaultModel} {db : DB} {l : Listen}
    {r : Option ListenRow} {db' : DB}
    (h : insert_listen fm db l = .ok (r, db')) :
    (r = none ∧ db' = db ∧
      (playedAtConflict db l = true ∨ ck_listen_item_type l = false))
    ∨ (∃ row, r = some row ∧ row.toListen = l ∧
        db' = { db with listens := db.listens ++ [row] } ∧
        playedAtConflict db l = false ∧ ck_listen_item_type l = true) := by
  unfold insert_listen at h
  split at h
  · cases h
  · split at h
    · cases h
      rename_i hcond
      refine Or.inl ⟨rfl, rfl, ?_⟩
      cases hC : playedAtConflict db l <;> cases hK : ck_listen_item_type l <;>
        simp_all
    · cases h
      rename_i hcond
      refine Or.inr ⟨⟨l, db.listens.length + 1⟩, rfl, rfl, rfl, ?_, ?_⟩ <;>
        cases hC : playedAtConflict db l <;> cases hK : ck_listen_item_type l <;>
          simp_all

lemma insert_listen_noFaults_ok (db : DB) (l : Listen) :
    ∃ r db', insert_listen noFaults db l = .ok (r, db') := by
  unfold insert_listen
  have h0 : noFaults.insertFails l = false := rfl
  rw [h0]
  simp only [Bool.false_eq_true, if_false]
  split
  · exact ⟨none, db, rfl⟩
  · exact ⟨some _, _, rfl⟩

/-! ### Support lemmas: the listens table only grows along a run -/

lemma processItem_listens_grow {fm : FaultModel} {m : Option Nat}
    {st st' : RunState} {item : RawItem}
    (h : processItem fm m st item = .ok st') :
    st.db.listens <+: st'.db.listens := by
  unfold processItem at h
  split at h
  · cases h; exact List.prefix_refl _
  · cases h; exact List.prefix_refl _
  · cases h; exact List.prefix_refl _
  · split at h
    · cases h; exact List.prefix_refl _
    · split at h
      · cases h
      · cases h; exact List.prefix_refl _
      · dsimp only at h
        split at h
        · split at h
          · cases h
          · cases h
            rename_i heq
            rcases insert_listen_ok_cases heq with ⟨hr, hdb, _⟩ | ⟨row, hr, _, hdb, _, _⟩
            · cases hr
            · subst hdb
              simp only [upsert_track_listens, upsert_album_listens,
                upsert_artist_listens]
              exact ⟨[row], rfl⟩
          · cases h
            rename_i heq
            rcases insert_listen_ok_cases heq with ⟨hr, hdb, _⟩ | ⟨row, hr, _, hdb, _, _⟩
            · subst hdb
              simp only [upsert_track_listens, upsert_album_listens,
                upsert_artist_listens]
              exact List.prefix_refl _
            · cases hr
        · cases h
          simp only [upsert_track_listens, upsert_album_listens, upsert_artist_listens]
          exact List.prefix_refl _
      · dsimp only at h
        split at h
        · cases h
        · cases h
          rename_i heq
          rcases insert_listen_ok_cases heq with ⟨hr, hdb, _⟩ | ⟨row, hr, _, hdb, _, _⟩
          · cases hr
          · subst hdb
            simp only [upsert_podcast_episode_listens, upsert_podcast_series_listens]
            exact ⟨[row], rfl⟩
        · cases h
          rename_i heq
          rcases insert_listen_ok_cases heq with ⟨hr, hdb, _⟩ | ⟨row, hr, _, hdb, _, _⟩
          · subst hdb
            simp only [upsert_podcast_episode_listens, upsert_podcast_series_listens]
            exact List.prefix_refl _
          · cases hr

lemma processItems_listens_grow {fm : FaultModel} {m : Option Nat} :
    ∀ {items : List RawItem} {u w : RunState},
      processItems fm m items u = .ok w → u.db.listens <+: w.db.listens := by
  intro items
  induction items with
  | nil =>
    intro u w h
    simp only [processItems] at h
    cases h
    exact List.prefix_refl _
  | cons item rest ih =>
    intro u w h
    simp only [processItems] at h
    cases hstep : processItem fm m u item with
    | error e => rw [hstep] at h; cases h
    | ok u' =>
      rw [hstep] at h
      exact List.IsPrefix.trans (processItem_listens_grow hstep) (ih h)

/-! ### Support lemmas: the RETURNING snapshot of a fault-free upsert carries
the draft key -/

lemma replaceOrAppend_artist_key (a : Artist) (fresh : Artist) (merge : Artist → Artist)
    (hf : fresh.artist_id = a.artist_id)
    (hm : ∀ x, (merge x).artist_id = x.artist_id) :
    ∀ rows, (replaceOrAppend (fun r => r.artist_id = a.artist_id)
      fresh merge rows).1.artist_id = a.artist_id := by
  intro rows
  induction rows with
  | nil => exact hf
  | cons x xs ih =>
    by_cases hx : x.artist_id = a.artist_id
    · simp only [replaceOrAppend, decide_eq_true hx, if_true]
      rw [hm x, hx]
    · simp only [replaceOrAppend, decide_eq_false hx, Bool.false_eq_true, if_false]
      exact ih

lemma replaceOrAppend_album_key (a : Album) (fresh : Album) (merge : Album → Album)
    (hf : fresh.album_id = a.album_id)
    (hm : ∀ x, (merge x).album_id = x.album_id) :
    ∀ rows, (replaceOrAppend (fun r => r.album_id = a.album_id)
      fresh merge rows).1.album_id = a.album_id := by
  intro rows
  induction rows with
  | nil => exact hf
  | cons x xs ih =>
    by_cases hx : x.album_id = a.album_id
    · simp only [replaceOrAppend, decide_eq_true hx, if_true]
      rw [hm x, hx]
    · simp only [replaceOrAppend, decide_eq_false hx, Bool.false_eq_true, if_false]
      exact ih

lemma replaceOrAppend_track_key (a : Track) (fresh : Track) (merge : Track → Track)
    (hf : fresh.track_id = a.track_id)
    (hm : ∀ x, (merge x).track_id = x.track_id) :
    ∀ rows, (replaceOrAppend (fun r => r.track_id = a.track_id)
      fresh merge rows).1.track_id = a.track_id := by
  intro rows
  induction rows with
  | nil => exact hf
  | cons x xs ih =>
    by_cases hx : x.track_id = a.track_id
    · simp only [replaceOrAppend, decide_eq_true hx, if_true]
      rw [hm x, hx]
    · simp only [replaceOrAppend, decide_eq_false hx, Bool.false_eq_true, if_false]
      exact ih

lemma upsert_artist_fst_key {fm : FaultModel} {db : DB} {a : Artist}
    (hfail : fm.artistFails a = false) :
    ∃ r, (upsert_artist fm db a).1 = some r ∧ r.artist_id = a.artist_id := by
  simp only [upsert_artist, hfail, Bool.false_eq_true, if_false]
  refine ⟨_, rfl, ?_⟩
  apply replaceOrAppend_artist_key
  · rfl
  · intro x; rfl

lemma upsert_album_fst_key {fm : FaultModel} {db : DB} {a : Album}
    (hfail : fm.albumFails a = false) :
    ∃ r, (upsert_album fm db a).1 = some r ∧ r.album_id = a.album_id := by
  simp only [upsert_album, hfail, Bool.false_eq_true, if_false]
  refine ⟨_, rfl, ?_⟩
  apply replaceOrAppend_album_key
  · rfl
  · intro x; rfl

lemma upsert_track_fst_key {fm : FaultModel} {db : DB} {a : Track}
    (hfail : fm.trackFails a = false) :
    ∃ r, (upsert_track fm db a).1 = some r ∧ r.track_id = a.track_id := by
  simp only [upsert_track, hfail, Bool.false_eq_true, if_false]
  refine ⟨_, rfl, ?_⟩
  apply replaceOrAppend_track_key
  · rfl
  · intro x; rfl

/-! ### Support lemmas: fields of the normalizer results -/

lemma normalize_item_track_fields {item : RawItem} {td : RawTrackData} {t : Nat}
    {a : Artist} {al : Album} {tr : Track} {li : Listen}
    (hT : item.track = some td) (hP : item.played_at = some (some t))
    (hN : normalize_item item = .ok (some (.track a al tr li))) :
    li.track_id = tr.track_id ∧ li.artist_id = a.artist_id ∧
    li.album_id = al.album_id ∧ li.played_at = t := by
  simp only [normalize_item, hT, hP] at hN
  split at hN
  · rw [Except.ok.injEq, Option.some.injEq, NormalizedItem.track.injEq] at hN
    obtain ⟨h1, h2, h3, h4⟩ := hN
    subst h1
    subst h2
    subst h3
    subst h4
    exact ⟨rfl, rfl, rfl, rfl⟩
  · split at hN
    · split at hN
      · cases hN
      · simp at hN
    · simp at hN

lemma normalize_item_episode_listen {item : RawItem} {td : RawTrackData} {t : Nat}
    {s : PodcastSeries} {e : PodcastEpisode} {li : Listen}
    (hT : item.track = some td) (hP : item.played_at = some (some t))
    (hN : normalize_item item = .ok (some (.episode s e li))) :
    li.played_at = t := by
  simp only [normalize_item, hT, hP] at hN
  split at hN
  · simp at hN
  · split at hN
    · cases hE : normalize_episode_item item with
      | error er =>
        rw [hE] at hN
        cases hN
      | ok trip =>
        obtain ⟨s0, e0, li0⟩ := trip
        rw [hE] at hN
        dsimp only at hN
        rw [Except.ok.injEq, Option.some.injEq, NormalizedItem.episode.injEq] at hN
        obtain ⟨h1, h2, h3⟩ := hN
        subst h1
        subst h2
        subst h3
        unfold normalize_episode_item at hE
        rw [hT] at hE
        dsimp only at hE
        cases hS : td.«show» with
        | none => simp only [hS] at hE; cases hE
        | some sd =>
          simp only [hS, hP] at hE
          cases hI1 : sd.id with
          | none => simp only [hI1] at hE; cases hE
          | some sid =>
            simp only [hI1] at hE
            cases hN1 : sd.name with
            | none => simp only [hN1] at hE; cases hE
            | some sname =>
              simp only [hN1] at hE
              cases hI2 : td.id with
              | none => simp only [hI2] at hE; cases hE
              | some eid =>
                simp only [hI2] at hE
                cases hN2 : td.name with
                | none => simp only [hN2] at hE; cases hE
                | some ename =>
                  simp only [hN2] at hE
                  rw [Except.ok.injEq] at hE
                  exact (congrArg (fun p => p.2.2.played_at) hE).symm
    · simp at hN

/-! ### Support lemmas: a processed item always reaches the listen insert -/

lemma processItem_track_insert {fm : FaultModel} {m : Option Nat} {st : RunState}
    {item : RawItem} {td : RawTrackData} {t : Nat} {a : Artist} {al : Album}
    {tr : Track} {li : Listen}
    (hT : item.track = some td) (hP : item.played_at = some (some t))
    (hF : notNewerThan m t = false)
    (hN : normalize_item item = .ok (some (.track a al tr li)))
    (hA : fm.artistFails a = false) (hB : fm.albumFails al = false)
    (hC : fm.trackFails tr = false) :
    processItem fm m st item =
      (match insert_listen fm
          (upsert_track fm (upsert_album fm (upsert_artist fm st.db a).2 al).2 tr).2 li with
        | .error er => .error er
        | .ok (some _, dbD) =>
          .ok ⟨dbD, st.new_listens_count + 1, st.processed_items_count + 1⟩
        | .ok (none, dbD) =>
          .ok ⟨dbD, st.new_listens_count, st.processed_items_count + 1⟩) := by
  obtain ⟨hid1, hid2, hid3, _⟩ := normalize_item_track_fields hT hP hN
  obtain ⟨ar, har, hark⟩ := @upsert_artist_fst_key fm st.db a hA
  obtain ⟨alr, halb, halk⟩ :=
    @upsert_album_fst_key fm (upsert_artist fm st.db a).2 al hB
  obtain ⟨trr, htrr, htrk⟩ :=
    @upsert_track_fst_key fm (upsert_album fm (upsert_artist fm st.db a).2 al).2 tr hC
  simp only [processItem, hT, hP, hF, Bool.false_eq_true, if_false, hN]
  rw [har, halb, htrr]
  dsimp only
  have hobj : ({ li with
      artist_id := ar.artist_id
      album_id := alr.album_id
      track_id := trr.track_id } : Listen) = li := by
    rw [hark, halk, htrk, ← hid1, ← hid2, ← hid3]
  rw [hobj]

lemma processItem_episode_insert {fm : FaultModel} {m : Option Nat} {st : RunState}
    {item : RawItem} {td : RawTrackData} {t : Nat}
    {s : PodcastSeries} {e : PodcastEpisode} {li : Listen}
    (hT : item.track = some td) (hP : item.played_at = some (some t))
    (hF : notNewerThan m t = false)
    (hN : normalize_item item = .ok (some (.episode s e li))) :
    processItem fm m st item =
      (match insert_listen fm
          (upsert_podcast_episode (upsert_podcast_series st.db s).2 e).2 li with
        | .error er => .error er
        | .ok (some _, dbC) =>
          .ok ⟨dbC, st.new_listens_count + 1, st.processed_items_count + 1⟩
        | .ok (none, dbC) =>
          .ok ⟨dbC, st.new_listens_count, st.processed_items_count + 1⟩) := by
  simp only [processItem, hT, hP, hF, Bool.false_eq_true, if_false, hN]

/-! ### Second run over the same page: every item is skipped or rejected

The key lemma behind idempotence: when a fault-free first run over some item
list ended in the state w, rerunning the same list against the high-water mark
taken from w inserts no listen at all - each item is either filtered out
(its instant is bounded by the mark, because the first run recorded it or it
was already recorded), rejected by normalization exactly as before, or
rejected by the check constraint exactly as before. -/

lemma processItems_second_run {m1 m2 : Option Nat} {w : RunState}
    (hm2 : m2 = maxPlayedAt w.db.listens)
    (hm1 : ∀ mv, m1 = some mv → notNewerThan m2 mv = true) :
    ∀ (items : List RawItem) (u v : RunState),
      processItems noFaults m1 items u = .ok w →
      v.db.listens = w.db.listens →
      ∃ v2, processItems noFaults m2 items v = .ok v2
        ∧ v2.db.listens = w.db.listens
        ∧ v2.new_listens_count = v.new_listens_count := by
  intro items
  induction items with
  | nil =>
    intro u v h1 hv
    exact ⟨v, rfl, hv, rfl⟩
  | cons item rest ih =>
    intro u v h1 hv
    simp only [processItems] at h1
    cases hstep1 : processItem noFaults m1 u item with
    | error e => rw [hstep1] at h1; cases h1
    | ok u' =>
      rw [hstep1] at h1
      have huu' : u.db.listens <+: u'.db.listens := processItem_listens_grow hstep1
      have hu'w : u'.db.listens <+: w.db.listens := processItems_listens_grow h1
      cases hT : item.track with
      | none =>
        have h2 : processItem noFaults m2 v item = .ok v := by
          simp [processItem, hT]
        obtain ⟨v2, hrest2, hl2, hc2⟩ := ih u' v h1 hv
        exact ⟨v2, by simp only [processItems, h2]; exact hrest2, hl2, hc2⟩
      | some td =>
        cases hP : item.played_at with
        | none =>
          have h2 : processItem noFaults m2 v item = .ok v := by
            simp [processItem, hT, hP]
          obtain ⟨v2, hrest2, hl2, hc2⟩ := ih u' v h1 hv
          exact ⟨v2, by simp only [processItems, h2]; exact hrest2, hl2, hc2⟩
        | some po =>
          cases po with
          | none =>
            have h2 : processItem noFaults m2 v item = .ok v := by
              simp [processItem, hT, hP]
            obtain ⟨v2, hrest2, hl2, hc2⟩ := ih u' v h1 hv
            exact ⟨v2, by simp only [processItems, h2]; exact hrest2, hl2, hc2⟩
          | some t =>
            cases hF2 : notNewerThan m2 t with
            | true =>
              have h2 : processItem noFaults m2 v item = .ok v := by
                simp [processItem, hT, hP, hF2]
              obtain ⟨v2, hrest2, hl2, hc2⟩ := ih u' v h1 hv
              exact ⟨v2, by simp only [processItems, h2]; exact hrest2, hl2, hc2⟩
            | false =>
              have hF1 : notNewerThan m1 t = false := filter_false_of_le hF2 hm1
              cases hN : normalize_item item with
              | error e =>
                simp only [processItem, hT, hP, hF1, Bool.false_eq_true, if_false,
                  hN] at hstep1
                cases hstep1
              | ok oni =>
                cases oni with
                | none =>
                  have h2 : processItem noFaults m2 v item =
                      .ok ⟨v.db, v.new_listens_count, v.processed_items_count + 1⟩ := by
                    simp only [processItem, hT, hP, hF2, Bool.false_eq_true,
                      if_false, hN]
                  obtain ⟨v2, hrest2, hl2, hc2⟩ :=
                    ih u' ⟨v.db, v.new_listens_count, v.processed_items_count + 1⟩ h1 hv
                  exact ⟨v2, by simp only [processItems, h2]; exact hrest2, hl2, hc2⟩
                | some ni =>
                  cases ni with
                  | track a al tr li =>
                    obtain ⟨hid1, hid2, hid3, hplay⟩ :=
                      normalize_item_track_fields hT hP hN
                    have e1 := @processItem_track_insert noFaults m1 u item td t
                      a al tr li hT hP hF1 hN rfl rfl rfl
                    rw [e1] at hstep1
                    cases hI1 : insert_listen noFaults
                        (upsert_track noFaults (upsert_album noFaults
                          (upsert_artist noFaults u.db a).2 al).2 tr).2 li with
                    | error er =>
                      simp only [hI1] at hstep1
                      cases hstep1
                    | ok pr =>
                      obtain ⟨r1, dbD1⟩ := pr
                      simp only [hI1] at hstep1
                      rcases insert_listen_ok_cases hI1 with
                        ⟨hr1, hdb1, hwhy⟩ | ⟨row, hr1, hrowl, hdb1, hnc, hck⟩
                      · rcases hwhy with hconf | hckf
                        · obtain ⟨r0, hr0mem, hr0t⟩ := playedAtConflict_eq_true.mp hconf
                          rw [upsert_track_listens, upsert_album_listens,
                            upsert_artist_listens] at hr0mem
                          have hr0w : r0 ∈ w.db.listens :=
                            (huu'.trans hu'w).subset hr0mem
                          have hnewer := mem_listens_not_newer hr0w
                          rw [← hm2, hr0t, hplay, hF2] at hnewer
                          exact Bool.noConfusion hnewer
                        · have e2 := @processItem_track_insert noFaults m2 v item td t
                            a al tr li hT hP hF2 hN rfl rfl rfl
                          have hI2 : insert_listen noFaults
                              (upsert_track noFaults (upsert_album noFaults
                                (upsert_artist noFaults v.db a).2 al).2 tr).2 li =
                              .ok (none, (upsert_track noFaults (upsert_album noFaults
                                (upsert_artist noFaults v.db a).2 al).2 tr).2) :=
                            insert_listen_ckfail rfl hckf
                          have h2 : processItem noFaults m2 v item =
                              .ok ⟨(upsert_track noFaults (upsert_album noFaults
                                  (upsert_artist noFaults v.db a).2 al).2 tr).2,
                                v.new_listens_count, v.processed_items_count + 1⟩ := by
                            rw [e2]
                            simp only [hI2]
                          have hvl : ((upsert_track noFaults (upsert_album noFaults
                              (upsert_artist noFaults v.db a).2 al).2 tr).2).listens =
                              w.db.listens := by
                            rw [upsert_track_listens, upsert_album_listens,
                              upsert_artist_listens, hv]
                          obtain ⟨v2, hrest2, hl2, hc2⟩ := ih u'
                            ⟨(upsert_track noFaults (upsert_album noFaults
                                (upsert_artist noFaults v.db a).2 al).2 tr).2,
                              v.new_listens_count, v.processed_items_count + 1⟩ h1 hvl
                          exact ⟨v2, by simp only [processItems, h2]; exact hrest2,
                            hl2, hc2⟩
                      · subst hr1
                        cases hstep1
                        have hrowmem : row ∈ w.db.listens := by
                          refine hu'w.subset ?_
                          rw [hdb1]
                          simp
                        have hnewer := mem_listens_not_newer hrowmem
                        have hrowt : row.played_at = t := by
                          show row.toListen.played_at = t
                          rw [hrowl, hplay]
                        rw [← hm2, hrowt, hF2] at hnewer
                        exact Bool.noConfusion hnewer
                  | episode s e li =>
                    have hplay := normalize_item_episode_listen hT hP hN
                    have e1 := @processItem_episode_insert noFaults m1 u item td t
                      s e li hT hP hF1 hN
                    rw [e1] at hstep1
                    cases hI1 : insert_listen noFaults
                        (upsert_podcast_episode
                          (upsert_podcast_series u.db s).2 e).2 li with
                    | error er =>
                      simp only [hI1] at hstep1
                      cases hstep1
                    | ok pr =>
                      obtain ⟨r1, dbD1⟩ := pr
                      simp only [hI1] at hstep1
                      rcases insert_listen_ok_cases hI1 with
                        ⟨hr1, hdb1, hwhy⟩ | ⟨row, hr1, hrowl, hdb1, hnc, hck⟩
                      · rcases hwhy with hconf | hckf
                        · obtain ⟨r0, hr0mem, hr0t⟩ := playedAtConflict_eq_true.mp hconf
                          rw [upsert_podcast_episode_listens,
                            upsert_podcast_series_listens] at hr0mem
                          have hr0w : r0 ∈ w.db.listens :=
                            (huu'.trans hu'w).subset hr0mem
                          have hnewer := mem_listens_not_newer hr0w
                          rw [← hm2, hr0t, hplay, hF2] at hnewer
                          exact Bool.noConfusion hnewer
                        · have e2 := @processItem_episode_insert noFaults m2 v item td t
                            s e li hT hP hF2 hN
                          have hI2 : insert_listen noFaults
                              (upsert_podcast_episode
                                (upsert_podcast_series v.db s).2 e).2 li =
                              .ok (none, (upsert_podcast_episode
                                (upsert_podcast_series v.db s).2 e).2) :=
                            insert_listen_ckfail rfl hckf
                          have h2 : processItem noFaults m2 v item =
                              .ok ⟨(upsert_podcast_episode
                                  (upsert_podcast_series v.db s).2 e).2,
                                v.new_listens_count, v.processed_items_count + 1⟩ := by
                            rw [e2]
                            simp only [hI2]
                          have hvl : ((upsert_podcast_episode
                              (upsert_podcast_series v.db s).2 e).2).listens =
                              w.db.listens := by
                            rw [upsert_podcast_episode_listens,
                              upsert_podcast_series_listens, hv]
                          obtain ⟨v2, hrest2, hl2, hc2⟩ := ih u'
                            ⟨(upsert_podcast_episode
                                (upsert_podcast_series v.db s).2 e).2,
                              v.new_listens_count, v.processed_items_count + 1⟩ h1 hvl
                          exact ⟨v2, by simp only [processItems, h2]; exact hrest2,
                            hl2, hc2⟩
                      · subst hr1
                        cases hstep1
                        have hrowmem : row ∈ w.db.listens := by
                          refine hu'w.subset ?_
                          rw [hdb1]
                          simp
                        have hnewer := mem_listens_not_newer hrowmem
                        have hrowt : row.played_at = t := by
                          show row.toListen.played_at = t
                          rw [hrowl, hplay]
                        rw [← hm2, hrowt, hF2] at hnewer
                        exact Bool.noConfusion hnewer

/-! ### Claim C9 -/

/-- C9: a fault-free ingestion run is idempotent over a fixed remote page.
The durable state after rerunning the orchestrator on the page it just
ingested equals the state after the first run, and (second conjunct) the
second run counts zero new listens, so no commit is issued and every catalog
entity table keeps its committed field values. -/
theorem claim_C9_reingestion_idempotent :
    ∀ (db : DB) (page : List RawItem),
      process_spotify_data noFaults (process_spotify_data noFaults db page) page =
        process_spotify_data noFaults db page
      ∧ (∀ st2, runCore noFaults (process_spotify_data noFaults db page) page = .ok st2 →
          st2.new_listens_count = 0) := by
  intro db page
  cases hrun1 : runCore noFaults db page with
  | error e =>
    have hdb1 : process_spotify_data noFaults db page = db := by
      simp only [process_spotify_data, hrun1]
    constructor
    · rw [hdb1]
      exact hdb1
    · intro st2 h2
      rw [hdb1, hrun1] at h2
      cases h2
  | ok st1 =>
    by_cases hc : 0 < st1.new_listens_count
    · have hdb1 : process_spotify_data noFaults db page = st1.db := by
        simp only [process_spotify_data, hrun1, if_pos hc]
      have hm1 : ∀ mv, get_max_played_at db = some mv →
          notNewerThan (get_max_played_at st1.db) mv = true := by
        intro mv hmv
        obtain ⟨r0, hr0, hr0m⟩ := @maxPlayedAt_mem db.listens mv hmv
        have hpre : db.listens <+: st1.db.listens :=
          processItems_listens_grow (u := ⟨db, 0, 0⟩) hrun1
        have hr0w : r0 ∈ st1.db.listens := hpre.subset hr0
        have hnn := mem_listens_not_newer hr0w
        rw [hr0m] at hnn
        exact hnn
      obtain ⟨v2, hfold2, hl2, hc2⟩ := @processItems_second_run
        (get_max_played_at db) (get_max_played_at st1.db) st1
        rfl hm1 page.reverse ⟨db, 0, 0⟩ ⟨st1.db, 0, 0⟩ hrun1 rfl
      have hrun2 : runCore noFaults st1.db page = .ok v2 := hfold2
      constructor
      · rw [hdb1]
        simp only [process_spotify_data, hrun2, hc2]
        simp
      · intro st2 h2
        rw [hdb1, hrun2] at h2
        cases h2
        exact hc2
    · have hdb1 : process_spotify_data noFaults db page = db := by
        simp only [process_spotify_data, hrun1, if_neg hc]
      have hcount : st1.new_listens_count = 0 := Nat.eq_zero_of_not_pos hc
      constructor
      · rw [hdb1]
        exact hdb1
      · intro st2 h2
        rw [hdb1, hrun1] at h2
        cases h2
        exact hcount

/-- Witness for C9: at the concrete three-track page over an empty store, the
second run returns the committed state unchanged and counts zero new
listens. -/
theorem claim_C9_reingestion_idempotent_witness :
    process_spotify_data noFaults (process_spotify_data noFaults DB.empty pageW) pageW =
      process_spotify_data noFaults DB.empty pageW
    ∧ (⟨process_spotify_data noFaults DB.empty pageW, 0, 0⟩ : RunState).new_listens_count
        = 0 :=
  ⟨(claim_C9_reingestion_idempotent DB.empty pageW).1,
   (claim_C9_reingestion_idempotent DB.empty pageW).2
     ⟨process_spotify_data noFaults DB.empty pageW, 0, 0⟩ (by rfl)⟩

end Spotistats
